import Mathlib

/-!
Verification of the timeline-composition and filter-graph-synthesis core of
`5_reddit_video_generator_video_bg_fixed.py` (function
`create_vertical_video_with_video_bg` and helper `get_precise_duration`).

The Python code is embedded shallowly:
- seconds are modelled exactly as rationals (`ℚ`); the Python source performs
  plain double arithmetic with no rounding, so the exact-arithmetic model is
  the mathematical content of its formulas;
- the textual filter graph is modelled both structurally (the `Interval` list
  produced by the trim-emission loop) and as the serialized string, where the
  rendering of a rational into Python's float syntax is abstracted by a
  `showQ : ℚ → String` parameter, and `os.path.join` by a
  `join : String → String → String` parameter: every property proved holds
  for every rendering/join function, which is exactly what the source
  guarantees (it calls one fixed such function everywhere);
- the external `ffprobe`/`ffmpeg` calls are modelled by their observable
  outcomes (`ProbeOutcome`, exit codes), since the core's behavior depends
  only on those.
-/

namespace RedditRhymes

/-! ## Fixed configuration constants (source lines 47–56 and `main`, lines 223–227) -/

/-- Output frame width, line 47. -/
def width : Nat := 1080

/-- Output frame height, line 48. -/
def height : Nat := 1920

/-- `music_file`, line 51. -/
def musicPath : String := "assets/energetic-upbeat-background-music-377668.mp3"

/-- `intro_duration = 2.0`, line 54. -/
def introDuration : ℚ := 2

/-- `outro_duration = 2.0`, line 55. -/
def outroDuration : ℚ := 2

/-- `pause_duration = 0.5`, line 56. -/
def pauseDuration : ℚ := 1/2

/-- `background_video` constant from `main`, line 226. -/
def backgroundVideoPath : String := "assets/xKRNDalWE-E.webm"

/-- `image_dir` constant from `main`, line 224. -/
def imageDirPath : String := "output/comment_images_transparent"

/-- `audio_dir` constant from `main`, line 225. -/
def audioDirPath : String := "output/audio_files"

/-- `output_video` constant from `main`, line 227. -/
def outputVideoPath : String := "output/reddit_poem_video.mp4"

/-! ## Timeline (the trim-emission loop, lines 84–122) -/

/-- Kind of a video interval of the timeline.  Each kind corresponds to one
trim emission site of the source: `seg idx` to line 90, `pause idx` to
line 106, `outro` to line 113, `intro` to line 122. -/
inductive IKind where
  | intro : IKind
  | seg : Nat → IKind
  | pause : Nat → IKind
  | outro : IKind
deriving DecidableEq, Repr

/-- One video interval: the trim `[bg]trim=start:start+duration` emitted for
it reads the half-open window `[start, start + duration)` of the background
pad. -/
structure Interval where
  kind : IKind
  start : ℚ
  duration : ℚ
deriving DecidableEq, Repr

/-- The segment/pause part of the loop of lines 85–110: walking the probed
durations with the running clock `cur` (Python's `current_time`) and segment
index `idx`, it emits one `seg` interval per duration and, after every
duration except the last (line 104's `idx < len(df) - 1` test), one `pause`
interval; it returns the emitted intervals together with the final clock. -/
def segWalk (p : ℚ) : ℚ → Nat → List ℚ → List Interval × ℚ
  | cur, _, [] => ([], cur)
  | cur, idx, d :: rest =>
    match rest with
    | [] => ([⟨IKind.seg idx, cur, d⟩], cur + d)
    | _ :: _ =>
      let r := segWalk p (cur + d + p) (idx + 1) rest
      (⟨IKind.seg idx, cur, d⟩ :: ⟨IKind.pause idx, cur + d, p⟩ :: r.1, r.2)

/-- The full planned timeline, in temporal order: the intro trim `[0, intro)`
(line 122), the segment/pause trims of the loop starting at clock `intro`
(line 84), and the outro trim starting at the loop's final clock (line 113). -/
def plan (intro outro p : ℚ) (durs : List ℚ) : List Interval :=
  let w := segWalk p intro 0 durs
  ⟨IKind.intro, 0, intro⟩ :: (w.1 ++ [⟨IKind.outro, w.2, outro⟩])

/-- `total_duration` as computed on line 66:
`intro + sum(audio_durations) + (len(df) - 1) * pause + outro`.  Python's
`len(df) - 1` is a signed integer (it is `-1` when the CSV is empty), hence
the cast through `ℤ`. -/
def totalDuration (intro outro p : ℚ) (durs : List ℚ) : ℚ :=
  intro + durs.sum + (((durs.length : ℤ) - 1 : ℤ) : ℚ) * p + outro

/-- Modelled from the claim's ordering description (comparison target, not
source code): the kinds `seg 0, pause 0, seg 1, pause 1, …, seg (n-1)` of the
segment/pause body, for `n` segments starting at index `i`. -/
def specSegKinds : Nat → Nat → List IKind
  | 0, _ => []
  | 1, i => [IKind.seg i]
  | n + 2, i => IKind.seg i :: IKind.pause i :: specSegKinds (n + 1) (i + 1)

/-- Modelled from the claim's ordering description (comparison target, not
source code): intro, seg 0, pause 0, seg 1, …, seg (n-1), outro. -/
def specKindOrder (n : Nat) : List IKind :=
  IKind.intro :: (specSegKinds n 0 ++ [IKind.outro])

/-- `tiles t l`: the intervals of `l` tile the time axis contiguously
starting at `t` — each interval starts where the previous one ends. -/
def tiles : ℚ → List Interval → Prop
  | _, [] => True
  | t, iv :: rest => iv.start = t ∧ tiles (t + iv.duration) rest

/-! ### Helper lemmas about the walk -/

theorem segWalk_nil (p cur : ℚ) (idx : Nat) :
    segWalk p cur idx [] = ([], cur) := rfl

theorem segWalk_single (p cur d : ℚ) (idx : Nat) :
    segWalk p cur idx [d] = ([⟨IKind.seg idx, cur, d⟩], cur + d) := rfl

theorem segWalk_cons2 (p cur d r : ℚ) (rs : List ℚ) (idx : Nat) :
    segWalk p cur idx (d :: r :: rs) =
      (⟨IKind.seg idx, cur, d⟩ :: ⟨IKind.pause idx, cur + d, p⟩ ::
        (segWalk p (cur + d + p) (idx + 1) (r :: rs)).1,
       (segWalk p (cur + d + p) (idx + 1) (r :: rs)).2) := rfl

theorem segWalk_snd (p : ℚ) :
    ∀ (durs : List ℚ) (cur : ℚ) (idx : Nat), durs ≠ [] →
      (segWalk p cur idx durs).2 =
        cur + durs.sum + ((durs.length - 1 : Nat) : ℚ) * p := by
  intro durs
  induction durs with
  | nil => intro cur idx h; exact absurd rfl h
  | cons d rest ih =>
    intro cur idx _
    cases rest with
    | nil => simp [segWalk_single]
    | cons r rs =>
      have h2 := ih (cur + d + p) (idx + 1) (by simp)
      simp only [segWalk_cons2, h2, List.sum_cons, List.length_cons]
      push_cast
      ring

theorem segWalk_tiles_strong (p : ℚ) :
    ∀ (durs : List ℚ) (cur : ℚ) (idx : Nat) (rest : List Interval),
      tiles (segWalk p cur idx durs).2 rest →
      tiles cur ((segWalk p cur idx durs).1 ++ rest) := by
  intro durs
  induction durs with
  | nil => intro cur idx rest h; simpa [segWalk_nil] using h
  | cons d ds ih =>
    intro cur idx rest h
    cases ds with
    | nil =>
      simp only [segWalk_single] at h ⊢
      exact ⟨rfl, h⟩
    | cons r rs =>
      simp only [segWalk_cons2] at h ⊢
      exact ⟨rfl, rfl, ih (cur + d + p) (idx + 1) rest h⟩

theorem segWalk_kinds (p : ℚ) :
    ∀ (durs : List ℚ) (cur : ℚ) (idx : Nat),
      ((segWalk p cur idx durs).1).map Interval.kind =
        specSegKinds durs.length idx := by
  intro durs
  induction durs with
  | nil => intro cur idx; simp [segWalk_nil, specSegKinds]
  | cons d ds ih =>
    intro cur idx
    cases ds with
    | nil => simp [segWalk_single, specSegKinds]
    | cons r rs =>
      simp only [segWalk_cons2, List.map_cons, List.length_cons]
      rw [ih (cur + d + p) (idx + 1)]
      simp [specSegKinds]

theorem specSegKinds_length :
    ∀ (n : Nat) (i : Nat), (specSegKinds (n + 1) i).length = 2 * (n + 1) - 1 := by
  intro n
  induction n with
  | zero => intro i; simp [specSegKinds]
  | succ m ih =>
    intro i
    show (specSegKinds (m + 2) i).length = _
    simp only [specSegKinds, List.length_cons, ih (i + 1)]
    omega

theorem segWalk_mem (p : ℚ) :
    ∀ (durs : List ℚ) (cur : ℚ) (idx : Nat) (iv : Interval),
      iv ∈ (segWalk p cur idx durs).1 →
      (∃ j, iv.kind = IKind.seg j ∧ idx ≤ j ∧
        durs[j - idx]? = some iv.duration) ∨
      (∃ j, iv.kind = IKind.pause j ∧ iv.duration = p) := by
  intro durs
  induction durs with
  | nil => intro cur idx iv h; simp [segWalk_nil] at h
  | cons d ds ih =>
    intro cur idx iv h
    cases ds with
    | nil =>
      simp only [segWalk_single, List.mem_singleton] at h
      subst h
      exact Or.inl ⟨idx, rfl, le_refl idx, by simp⟩
    | cons r rs =>
      simp only [segWalk_cons2, List.mem_cons] at h
      rcases h with h | h | h
      · subst h
        exact Or.inl ⟨idx, rfl, le_refl idx, by simp⟩
      · subst h
        exact Or.inr ⟨idx, rfl, rfl⟩
      · rcases ih (cur + d + p) (idx + 1) iv h with ⟨j, hk, hle, hget⟩ | hp
        · refine Or.inl ⟨j, hk, by omega, ?_⟩
          have hidx : j - idx = (j - (idx + 1)) + 1 := by omega
          rw [hidx]
          simpa using hget
        · exact Or.inr hp


theorem plan_cons (i o p : ℚ) (durs : List ℚ) :
    plan i o p durs =
      ⟨IKind.intro, 0, i⟩ ::
        ((segWalk p i 0 durs).1 ++ [⟨IKind.outro, (segWalk p i 0 durs).2, o⟩]) := rfl

theorem segWalk_fst_length (p : ℚ) (d : ℚ) (ds : List ℚ) (cur : ℚ) (idx : Nat) :
    (segWalk p cur idx (d :: ds)).1.length = 2 * (ds.length + 1) - 1 := by
  have hk := segWalk_kinds p (d :: ds) cur idx
  have := congrArg List.length hk
  simpa [specSegKinds_length ds.length idx] using this

/-- C1: for every N ≥ 1 (the duration list is `d :: ds`) and every list of
audio durations, the planned timeline has exactly `2N + 1` video intervals,
in the order intro, seg 0, pause 0, seg 1, …, seg (N-1), outro (hence `N - 1`
pauses), and the computed `total_duration` of line 66 equals
`intro + Σ durations + (N - 1) * pause + outro` exactly — in particular to
within `1e-6` seconds. -/
theorem C1_plan_shape_total (i o p d : ℚ) (ds : List ℚ) :
    (plan i o p (d :: ds)).length = 2 * (d :: ds).length + 1 ∧
    (plan i o p (d :: ds)).map Interval.kind = specKindOrder (d :: ds).length ∧
    totalDuration i o p (d :: ds) =
      i + (d :: ds).sum + (((d :: ds).length - 1 : Nat) : ℚ) * p + o ∧
    |totalDuration i o p (d :: ds) -
        (i + (d :: ds).sum + (((d :: ds).length - 1 : Nat) : ℚ) * p + o)| ≤
      1 / 1000000 := by
  have htot : totalDuration i o p (d :: ds) =
      i + (d :: ds).sum + (((d :: ds).length - 1 : Nat) : ℚ) * p + o := by
    simp only [totalDuration, List.length_cons]
    push_cast
    ring
  refine ⟨?_, ?_, htot, ?_⟩
  · rw [plan_cons]
    simp only [List.length_cons, List.length_append, List.length_nil,
      segWalk_fst_length]
    omega
  · rw [plan_cons]
    simp only [List.map_cons, List.map_append, List.map_nil,
      segWalk_kinds, specKindOrder, List.length_cons]
  · rw [htot, sub_self, abs_zero]
    norm_num

/-- C3: the trim bounds emitted for intro, segments, pauses and outro tile
the timeline contiguously starting at 0 (each trim starts where the previous
one ends), each segment trim is as long as that segment's probed duration,
each pause trim is the pause constant, intro/outro trims are the intro/outro
constants, and the outro trim ends exactly at the computed `total_duration`
of line 66. -/
theorem C3_trim_bounds_tile (i o p d : ℚ) (ds : List ℚ) :
    tiles 0 (plan i o p (d :: ds)) ∧
    (∀ iv ∈ plan i o p (d :: ds),
      (iv.kind = IKind.intro → iv.duration = i) ∧
      (iv.kind = IKind.outro → iv.duration = o) ∧
      (∀ j, iv.kind = IKind.pause j → iv.duration = p) ∧
      (∀ j, iv.kind = IKind.seg j → (d :: ds)[j]? = some iv.duration)) ∧
    (plan i o p (d :: ds)).getLast?.map (fun iv => iv.start + iv.duration) =
      some (totalDuration i o p (d :: ds)) := by
  refine ⟨?_, ?_, ?_⟩
  · rw [plan_cons]
    refine ⟨rfl, ?_⟩
    rw [zero_add]
    exact segWalk_tiles_strong p (d :: ds) i 0 _ ⟨rfl, trivial⟩
  · intro iv hiv
    rw [plan_cons, List.mem_cons, List.mem_append, List.mem_singleton] at hiv
    rcases hiv with h | h | h
    · subst h
      refine ⟨fun _ => rfl, ?_, ?_, ?_⟩
      · intro hk; exact absurd hk (by simp)
      · intro j hk; exact absurd hk (by simp)
      · intro j hk; exact absurd hk (by simp)
    · rcases segWalk_mem p (d :: ds) i 0 iv h with ⟨j, hk, _, hget⟩ | ⟨j, hk, hd⟩
      · refine ⟨?_, ?_, ?_, ?_⟩
        · intro h'; rw [hk] at h'; exact absurd h' (by simp)
        · intro h'; rw [hk] at h'; exact absurd h' (by simp)
        · intro j' h'; rw [hk] at h'; exact absurd h' (by simp)
        · intro j' h'
          rw [hk] at h'
          have hj : j = j' := by injection h'
          subst hj
          simpa using hget
      · refine ⟨?_, ?_, ?_, ?_⟩
        · intro h'; rw [hk] at h'; exact absurd h' (by simp)
        · intro h'; rw [hk] at h'; exact absurd h' (by simp)
        · intro j' h'; exact hd
        · intro j' h'; rw [hk] at h'; exact absurd h' (by simp)
    · subst h
      refine ⟨?_, fun _ => rfl, ?_, ?_⟩
      · intro hk; exact absurd hk (by simp)
      · intro j hk; exact absurd hk (by simp)
      · intro j hk; exact absurd hk (by simp)
  · rw [plan_cons, ← List.cons_append, List.getLast?_concat]
    have hsnd := segWalk_snd p (d :: ds) i 0 (by simp)
    simp only [Option.map_some', Option.some.injEq, hsnd, totalDuration,
      List.length_cons]
    push_cast
    ring


theorem C3_trim_bounds_tile_witness :
    tiles 0 (plan 2 2 (1/2) (3 :: [])) ∧
    (∀ iv ∈ plan 2 2 (1/2) (3 :: []),
      (iv.kind = IKind.intro → iv.duration = 2) ∧
      (iv.kind = IKind.outro → iv.duration = 2) ∧
      (∀ j, iv.kind = IKind.pause j → iv.duration = 1/2) ∧
      (∀ j, iv.kind = IKind.seg j → ((3 : ℚ) :: [])[j]? = some iv.duration)) ∧
    (plan 2 2 (1/2) (3 :: [])).getLast?.map (fun iv => iv.start + iv.duration) =
      some (totalDuration 2 2 (1/2) (3 :: [])) :=
  C3_trim_bounds_tile 2 2 (1/2) 3 []

/-! ## Input files and external-input indices (lines 93, 99, 146, 158–175) -/

/-- Python's `f"{k:02d}"` formatting: zero-pad to two digits. -/
def pad2 (k : Nat) : String :=
  if k < 10 then "0" ++ toString k else toString k

/-- The image file of segment `idx`, as built on line 165:
`os.path.join(image_dir, f"comment_{idx + 1:02d}_transparent.png")`.
`join` abstracts `os.path.join`. -/
def imageFile (join : String → String → String) (imageDir : String) (idx : Nat) : String :=
  join imageDir ("comment_" ++ pad2 (idx + 1) ++ "_transparent.png")

/-- The audio file of segment `idx` appended to the input list on line 170:
`os.path.join(audio_dir, f"audio_{idx + 1:02d}.wav")`. -/
def audioFile (join : String → String → String) (audioDir : String) (idx : Nat) : String :=
  join audioDir ("audio_" ++ pad2 (idx + 1) ++ ".wav")

/-- The audio file probed for segment `idx`'s duration on line 61:
`os.path.join(audio_dir, f"audio_{idx+1:02d}.wav")`. -/
def probedAudioFile (join : String → String → String) (audioDir : String) (idx : Nat) : String :=
  join audioDir ("audio_" ++ pad2 (idx + 1) ++ ".wav")

/-- The ordered ffmpeg input file list of lines 160–175: the background video
(line 161), then the `n` comment images in segment order (lines 164–166),
then the `n` audio clips in segment order (lines 169–171), then the music
file when present (lines 174–175). -/
def inputFiles (join : String → String → String)
    (bg imageDir audioDir : String) (n : Nat) (music : Bool) : List String :=
  bg :: ((List.range n).map (imageFile join imageDir) ++
    ((List.range n).map (audioFile join audioDir) ++
      (if music then [musicPath] else [])))

/-- The external-input index under which segment `idx`'s image is referenced
in the filter graph, line 93: `[{idx + 1}:v]`. -/
def imageRefIndex (idx : Nat) : Nat := idx + 1

/-- The external-input index under which segment `idx`'s audio is referenced,
line 99: `[{len(df) + idx + 1}:a]`. -/
def audioRefIndex (n idx : Nat) : Nat := n + idx + 1

/-- The external-input index under which the music file is referenced,
line 146: `[{len(df) * 2 + 1}:a]`. -/
def musicRefIndex (n : Nat) : Nat := n * 2 + 1

/-- Every external-input index referenced by the compiled filter graph:
`[0:v]` for the background (line 77), the image references (line 93), the
audio references (line 99), and — when the music file exists — the music
reference (line 146). -/
def externalRefs (n : Nat) (music : Bool) : List Nat :=
  0 :: ((List.range n).map imageRefIndex ++
    ((List.range n).map (audioRefIndex n) ++
      (if music then [musicRefIndex n] else [])))

theorem inputFiles_length (join : String → String → String)
    (bg imageDir audioDir : String) (n : Nat) (music : Bool) :
    (inputFiles join bg imageDir audioDir n music).length =
      1 + n + n + (if music then 1 else 0) := by
  cases music <;> simp [inputFiles] <;> omega

theorem inputFiles_image (join : String → String → String)
    (bg imageDir audioDir : String) (n : Nat) (music : Bool)
    (idx : Nat) (h : idx < n) :
    (inputFiles join bg imageDir audioDir n music)[imageRefIndex idx]? =
      some (imageFile join imageDir idx) := by
  simp only [inputFiles, imageRefIndex, List.getElem?_cons_succ]
  rw [List.getElem?_append_left (by simpa using h), List.getElem?_map,
    List.getElem?_range h]
  rfl

theorem inputFiles_audio (join : String → String → String)
    (bg imageDir audioDir : String) (n : Nat) (music : Bool)
    (idx : Nat) (h : idx < n) :
    (inputFiles join bg imageDir audioDir n music)[audioRefIndex n idx]? =
      some (audioFile join audioDir idx) := by
  simp only [inputFiles, audioRefIndex, List.getElem?_cons_succ]
  rw [List.getElem?_append_right (by simp)]
  simp only [List.length_map, List.length_range]
  have hidx : n + idx - n = idx := by omega
  rw [hidx, List.getElem?_append_left (by simpa using h), List.getElem?_map,
    List.getElem?_range h]
  rfl

theorem inputFiles_music (join : String → String → String)
    (bg imageDir audioDir : String) (n : Nat) :
    (inputFiles join bg imageDir audioDir n true)[musicRefIndex n]? =
      some musicPath := by
  simp only [inputFiles, musicRefIndex, if_true]
  have h2 : n * 2 + 1 = (n + n) + 1 := by omega
  rw [h2, List.getElem?_cons_succ, List.getElem?_append_right (by simp)]
  simp

/-- C2: every external-input stream index referenced in the compiled filter
graph resolves to the matching entry of the ffmpeg input list — the
background at index 0, segment `idx`'s image at index `idx + 1`, segment
`idx`'s audio at index `n + idx + 1`, the music file (when present) at index
`2n + 1` — and every referenced index is strictly below the number of input
files. -/
theorem C2_input_indices_aligned (join : String → String → String)
    (bg imageDir audioDir : String) (n : Nat) (music : Bool) (hn : 1 ≤ n) :
    (inputFiles join bg imageDir audioDir n music)[0]? = some bg ∧
    (∀ idx, idx < n →
      (inputFiles join bg imageDir audioDir n music)[imageRefIndex idx]? =
        some (imageFile join imageDir idx)) ∧
    (∀ idx, idx < n →
      (inputFiles join bg imageDir audioDir n music)[audioRefIndex n idx]? =
        some (audioFile join audioDir idx)) ∧
    (music = true →
      (inputFiles join bg imageDir audioDir n music)[musicRefIndex n]? =
        some musicPath) ∧
    (∀ r ∈ externalRefs n music,
      r < (inputFiles join bg imageDir audioDir n music).length) := by
  refine ⟨List.getElem?_cons_zero, ?_, ?_, ?_, ?_⟩
  · intro idx h; exact inputFiles_image join bg imageDir audioDir n music idx h
  · intro idx h; exact inputFiles_audio join bg imageDir audioDir n music idx h
  · intro hm; subst hm; exact inputFiles_music join bg imageDir audioDir n
  · intro r hr
    rw [inputFiles_length]
    simp only [externalRefs, List.mem_cons, List.mem_append, List.mem_map,
      List.mem_range] at hr
    rcases hr with h | ⟨a, ha, rfl⟩ | ⟨a, ha, rfl⟩ | h
    · subst h; omega
    · simp only [imageRefIndex]; cases music <;> simp <;> omega
    · simp only [audioRefIndex]; cases music <;> simp <;> omega
    · cases music with
      | false => simp at h
      | true =>
        simp only [if_true, List.mem_singleton] at h
        subst h
        simp only [musicRefIndex, if_true]
        omega

theorem C2_input_indices_aligned_witness :
    (inputFiles (fun a b => a ++ "/" ++ b) backgroundVideoPath imageDirPath
        audioDirPath 2 true)[0]? = some backgroundVideoPath ∧
    (∀ idx, idx < 2 →
      (inputFiles (fun a b => a ++ "/" ++ b) backgroundVideoPath imageDirPath
          audioDirPath 2 true)[imageRefIndex idx]? =
        some (imageFile (fun a b => a ++ "/" ++ b) imageDirPath idx)) ∧
    (∀ idx, idx < 2 →
      (inputFiles (fun a b => a ++ "/" ++ b) backgroundVideoPath imageDirPath
          audioDirPath 2 true)[audioRefIndex 2 idx]? =
        some (audioFile (fun a b => a ++ "/" ++ b) audioDirPath idx)) ∧
    (true = true →
      (inputFiles (fun a b => a ++ "/" ++ b) backgroundVideoPath imageDirPath
          audioDirPath 2 true)[musicRefIndex 2]? = some musicPath) ∧
    (∀ r ∈ externalRefs 2 true,
      r < (inputFiles (fun a b => a ++ "/" ++ b) backgroundVideoPath
            imageDirPath audioDirPath 2 true).length) :=
  C2_input_indices_aligned (fun a b => a ++ "/" ++ b) backgroundVideoPath
    imageDirPath audioDirPath 2 true (by omega)

/-- C10: for every segment index `idx < n`, the audio path probed for that
segment's duration (line 61) and the file at position `1 + n + idx` of the
ffmpeg input list (lines 169–171) are constructed identically, so durations
are measured on exactly the clips that are concatenated. -/
theorem C10_probed_equals_input (join : String → String → String)
    (bg imageDir audioDir : String) (n : Nat) (music : Bool)
    (idx : Nat) (h : idx < n) :
    probedAudioFile join audioDir idx = audioFile join audioDir idx ∧
    (inputFiles join bg imageDir audioDir n music)[1 + n + idx]? =
      some (probedAudioFile join audioDir idx) := by
  refine ⟨rfl, ?_⟩
  have hpos : 1 + n + idx = audioRefIndex n idx := by
    simp only [audioRefIndex]; omega
  rw [hpos, inputFiles_audio join bg imageDir audioDir n music idx h]
  rfl

theorem C10_probed_equals_input_witness :
    probedAudioFile (fun a b => a ++ "/" ++ b) audioDirPath 1 =
      audioFile (fun a b => a ++ "/" ++ b) audioDirPath 1 ∧
    (inputFiles (fun a b => a ++ "/" ++ b) backgroundVideoPath imageDirPath
        audioDirPath 3 false)[1 + 3 + 1]? =
      some (probedAudioFile (fun a b => a ++ "/" ++ b) audioDirPath 1) :=
  C10_probed_equals_input (fun a b => a ++ "/" ++ b) backgroundVideoPath
    imageDirPath audioDirPath 3 false 1 (by omega)


/-! ## Serialized filter graph (lines 71–155)

`showQ : ℚ → String` abstracts Python's float-to-text interpolation, applied
uniformly wherever the source interpolates a duration or clock value. -/

/-- Line 77: the background scale/crop filter producing pad `[bg]`. -/
def bgScaleFilter : String :=
  "[0:v]scale=" ++ toString width ++ ":" ++ toString height ++
    ":force_original_aspect_ratio=increase,crop=" ++ toString width ++ ":" ++
    toString height ++ ",setsar=1[bg];"

/-- Line 80: the intro silence source. -/
def introAudioFilter (showQ : ℚ → String) (i : ℚ) : String :=
  "aevalsrc=0:duration=" ++ showQ i ++
    ":sample_rate=44100:channel_layout=stereo[intro_audio];"

/-- The loop of lines 85–110, string level: returns the per-segment filter
lines (trim of line 90, image scale of line 93, overlay of line 96, and for
non-final segments the pause trim of line 106 and pause silence of line 108),
the audio pad list built at lines 81/99/109, the video pad list built at
lines 123–129, and the final clock. -/
def segLoopS (showQ : ℚ → String) (p : ℚ) (n : Nat) :
    ℚ → Nat → List ℚ → (List String × List String × List String × ℚ)
  | cur, _, [] => ([], [], [], cur)
  | cur, idx, d :: rest =>
    let fParts := [
      "[bg]trim=" ++ showQ cur ++ ":" ++ showQ (cur + d) ++
        ",setpts=PTS-STARTPTS[bg" ++ toString idx ++ "];",
      "[" ++ toString (imageRefIndex idx) ++ ":v]scale=" ++ toString width ++
        ":" ++ toString height ++ "[overlay" ++ toString idx ++ "];",
      "[bg" ++ toString idx ++ "][overlay" ++ toString idx ++
        "]overlay=0:0[v" ++ toString idx ++ "];"]
    let aPart := "[" ++ toString (audioRefIndex n idx) ++ ":a]"
    let vPart := "[v" ++ toString idx ++ "]"
    match rest with
    | [] => (fParts, [aPart], [vPart], cur + d)
    | _ :: _ =>
      let r := segLoopS showQ p n (cur + d + p) (idx + 1) rest
      (fParts ++
        ("[bg]trim=" ++ showQ (cur + d) ++ ":" ++ showQ (cur + d + p) ++
          ",setpts=PTS-STARTPTS[pause" ++ toString idx ++ "];") ::
        ("aevalsrc=0:duration=" ++ showQ p ++
          ":sample_rate=44100:channel_layout=stereo[pause_audio" ++
          toString idx ++ "];") :: r.1,
       aPart :: ("[pause_audio" ++ toString idx ++ "]") :: r.2.1,
       vPart :: ("[pause" ++ toString idx ++ "]") :: r.2.2.1,
       r.2.2.2)

/-- Line 113: the outro trim. -/
def outroTrimFilter (showQ : ℚ → String) (cur o : ℚ) : String :=
  "[bg]trim=" ++ showQ cur ++ ":" ++ showQ (cur + o) ++
    ",setpts=PTS-STARTPTS[outro_v];"

/-- Line 114: the outro silence source. -/
def outroAudioFilter (showQ : ℚ → String) (o : ℚ) : String :=
  "aevalsrc=0:duration=" ++ showQ o ++
    ":sample_rate=44100:channel_layout=stereo[outro_audio];"

/-- Line 122: the intro trim, with literal lower bound 0. -/
def introTrimFilter (showQ : ℚ → String) (i : ℚ) : String :=
  "[bg]trim=0:" ++ showQ i ++ ",setpts=PTS-STARTPTS[intro_v];"

/-- Line 145: gain and band-limiting on the concatenated voice audio
(music branch only). -/
def voiceShapeFilter : String :=
  "[concat_audio]volume=1.5,highpass=f=100,lowpass=f=3000[voice];"

/-- Line 146: the gain node on the music external input. -/
def musicGainFilter (n : Nat) : String :=
  "[" ++ toString (musicRefIndex n) ++ ":a]volume=0.08[music];"

/-- The `duration` option of the amix node emitted on line 147. -/
def amixDurationMode : String := "first"

/-- The `weights` option of the amix node emitted on line 147: voice weight
1, music weight 0.5. -/
def amixWeights : String := "1 0.5"

/-- Line 147: the voice/music mix node. -/
def mixFilter : String :=
  "[voice][music]amix=inputs=2:duration=" ++ amixDurationMode ++
    ":weights=" ++ amixWeights ++ "[final_audio]"

/-- Line 151: the voice-only tail used when the music file is absent — gain
only, no band-limiting. -/
def voiceOnlyFilter : String := "[concat_audio]volume=1.5[final_audio]"

/-- Lines 143–152: the tail of the filter graph and the name of the final
audio pad passed to `-map`. -/
def audioTail (n : Nat) (music : Bool) : List String × String :=
  if music then ([voiceShapeFilter, musicGainFilter n, mixFilter], "[final_audio]")
  else ([voiceOnlyFilter], "[final_audio]")

theorem mixFilter_literal :
    mixFilter =
      "[voice][music]amix=inputs=2:duration=first:weights=1 0.5[final_audio]" := by
  decide

/-- The full `filter_complex` string of line 155: `"".join(filter_parts)`,
with the parts appended in the source's order (lines 77, 80, loop, 113, 114,
122, 136, 140, 143–152). -/
def buildFilterComplex (showQ : ℚ → String) (durs : List ℚ) (music : Bool) : String :=
  let n := durs.length
  let w := segLoopS showQ pauseDuration n introDuration 0 durs
  let videoParts := "[intro_v]" :: (w.2.2.1 ++ ["[outro_v]"])
  let audioParts := "[intro_audio]" :: (w.2.1 ++ ["[outro_audio]"])
  String.join
    ([bgScaleFilter, introAudioFilter showQ introDuration] ++ w.1 ++
      [outroTrimFilter showQ w.2.2.2 outroDuration,
       outroAudioFilter showQ outroDuration,
       introTrimFilter showQ introDuration,
       String.join videoParts ++ "concat=n=" ++ toString videoParts.length ++
         ":v=1:a=0[video];",
       String.join audioParts ++ "concat=n=" ++ toString audioParts.length ++
         ":v=0:a=1[concat_audio];"] ++
      (audioTail n music).1)

/-- C4: graph compilation is deterministic — the compiled filter-graph text
is a function of the probed duration list and music presence alone (every
node and pad label is derived from the interval index and kind), and the
input-file list (built against the fixed paths of `main`, lines 223–227) is
a function of the segment count and music presence alone; two runs agreeing
on these inputs produce byte-identical strings. -/
theorem C4_deterministic (showQ : ℚ → String) (join : String → String → String)
    (durs1 durs2 : List ℚ) (m1 m2 : Bool) (hd : durs1 = durs2) (hm : m1 = m2) :
    buildFilterComplex showQ durs1 m1 = buildFilterComplex showQ durs2 m2 ∧
    inputFiles join backgroundVideoPath imageDirPath audioDirPath durs1.length m1 =
      inputFiles join backgroundVideoPath imageDirPath audioDirPath durs2.length m2 := by
  subst hd
  subst hm
  exact ⟨rfl, rfl⟩

theorem C4_deterministic_witness :
    buildFilterComplex (fun q => toString q) [2] true =
      buildFilterComplex (fun q => toString q) [2] true ∧
    inputFiles (fun a b => a ++ "/" ++ b) backgroundVideoPath imageDirPath
        audioDirPath (([2] : List ℚ)).length true =
      inputFiles (fun a b => a ++ "/" ++ b) backgroundVideoPath imageDirPath
        audioDirPath (([2] : List ℚ)).length true :=
  C4_deterministic (fun q => toString q) (fun a b => a ++ "/" ++ b)
    [2] [2] true true rfl rfl

/-- C5 counterexample: the mix node the code emits (line 147) fixes
`duration=first` — the mixed audio's duration is governed by the FIRST input
(the shaped voice pad), not by the longer of the two inputs as the claim
states (ffmpeg's option for that would be `longest`). -/
theorem C5_counterexample :
    audioTail 1 true =
      ([voiceShapeFilter, musicGainFilter 1, mixFilter], "[final_audio]") ∧
    amixDurationMode = "first" ∧ amixDurationMode ≠ "longest" := by
  refine ⟨rfl, rfl, ?_⟩
  decide

/-- C5 amended: when the music file is present the compiled tail applies a
gain node (`volume=0.08`) to the music input and mixes the shaped voice pad
with the music pad at fixed weights 1 and 0.5 (voice dominant), the mixed
duration being governed by the first input (the shaped voice pad); when no
music file is present the voice pad with gain applied is the final audio pad
directly. -/
theorem C5_amended_mix_tail (n : Nat) :
    audioTail n true =
      ([voiceShapeFilter, musicGainFilter n, mixFilter], "[final_audio]") ∧
    musicGainFilter n =
      "[" ++ toString (musicRefIndex n) ++ ":a]volume=0.08[music];" ∧
    amixDurationMode = "first" ∧
    amixWeights = "1 0.5" ∧
    audioTail n false = ([voiceOnlyFilter], "[final_audio]") ∧
    voiceOnlyFilter = "[concat_audio]volume=1.5[final_audio]" :=
  ⟨rfl, rfl, rfl, rfl, rfl, rfl⟩


/-! ## Duration prober (`get_precise_duration`, lines 14–33) -/

/-- Observable outcome of one external ffprobe invocation plus its parse:
`ok d` — the call succeeded and its output parsed to duration `d`;
`parseFailure` — the tool ran but its output was unreadable (JSON error,
missing field, or float conversion failure); `toolMissing` — invoking the
tool itself raised (the probing tool is absent). -/
inductive ProbeOutcome where
  | ok : ℚ → ProbeOutcome
  | parseFailure : ProbeOutcome
  | toolMissing : ProbeOutcome
deriving DecidableEq

/-- The error taxonomy named by the specification (§7).  The source never
constructs either value. -/
inductive ProbeError where
  | probeUnavailable : ProbeError
  | probeParseFailure : ProbeError
deriving DecidableEq

/-- Embeds `get_precise_duration` (lines 14–33) over the outcome of the
primary JSON probe (lines 16–24) and of the fallback probe (lines 27–31).
Both `except:` handlers are bare (lines 25 and 32): every exception — a
parse failure as much as a missing tool — is caught alike, so the function
always returns a value: the parsed duration if the primary call succeeds,
the fallback call's parsed duration otherwise, and the constant 2.0 when
both fail for any reason.  The `Except` result type records that no error is
ever propagated. -/
def get_precise_duration (primary fb : ProbeOutcome) : Except ProbeError ℚ :=
  match primary with
  | ProbeOutcome.ok d => Except.ok d
  | _ =>
    match fb with
    | ProbeOutcome.ok d => Except.ok d
    | _ => Except.ok 2

/-- C9: `get_precise_duration` is total and never raises: it returns the
primary parse's duration when that call succeeds, the fallback parse's
duration when only the fallback succeeds, and the constant 2.0 in every
other case — including when the probing tool is entirely absent. -/
theorem C9_prober_total (p f : ProbeOutcome) (d : ℚ) :
    (get_precise_duration (ProbeOutcome.ok d) f = Except.ok d) ∧
    ((∀ x, p ≠ ProbeOutcome.ok x) →
      get_precise_duration p (ProbeOutcome.ok d) = Except.ok d) ∧
    ((∀ x, p ≠ ProbeOutcome.ok x) → (∀ x, f ≠ ProbeOutcome.ok x) →
      get_precise_duration p f = Except.ok 2) ∧
    (∃ r, get_precise_duration p f = Except.ok r) := by
  refine ⟨rfl, ?_, ?_, ?_⟩
  · intro hp
    cases p with
    | ok x => exact absurd rfl (hp x)
    | parseFailure => rfl
    | toolMissing => rfl
  · intro hp hf
    cases p with
    | ok x => exact absurd rfl (hp x)
    | parseFailure =>
      cases f with
      | ok y => exact absurd rfl (hf y)
      | parseFailure => rfl
      | toolMissing => rfl
    | toolMissing =>
      cases f with
      | ok y => exact absurd rfl (hf y)
      | parseFailure => rfl
      | toolMissing => rfl
  · cases p with
    | ok x => exact ⟨x, rfl⟩
    | parseFailure =>
      cases f with
      | ok y => exact ⟨y, rfl⟩
      | parseFailure => exact ⟨2, rfl⟩
      | toolMissing => exact ⟨2, rfl⟩
    | toolMissing =>
      cases f with
      | ok y => exact ⟨y, rfl⟩
      | parseFailure => exact ⟨2, rfl⟩
      | toolMissing => exact ⟨2, rfl⟩

theorem C9_prober_total_witness :
    (get_precise_duration (ProbeOutcome.ok 3) ProbeOutcome.toolMissing =
      Except.ok 3) ∧
    ((∀ x, ProbeOutcome.parseFailure ≠ ProbeOutcome.ok x) →
      get_precise_duration ProbeOutcome.parseFailure (ProbeOutcome.ok 3) =
        Except.ok 3) ∧
    ((∀ x, ProbeOutcome.parseFailure ≠ ProbeOutcome.ok x) →
      (∀ x, ProbeOutcome.toolMissing ≠ ProbeOutcome.ok x) →
      get_precise_duration ProbeOutcome.parseFailure ProbeOutcome.toolMissing =
        Except.ok 2) ∧
    (∃ r, get_precise_duration ProbeOutcome.parseFailure
        ProbeOutcome.toolMissing = Except.ok r) :=
  C9_prober_total ProbeOutcome.parseFailure ProbeOutcome.toolMissing 3

/-- C6 counterexample: when the probing tool is entirely absent (both
invocations raise, the situation the claim calls ProbeUnavailable), the code
does not abort the run: the bare `except:` handlers swallow the exception
and the per-clip 2.0-second fallback is returned, exactly as for a parse
failure — the two failure classes are not distinguished. -/
theorem C6_counterexample :
    get_precise_duration ProbeOutcome.toolMissing ProbeOutcome.toolMissing =
      Except.ok 2 ∧
    get_precise_duration ProbeOutcome.toolMissing ProbeOutcome.toolMissing ≠
      Except.error ProbeError.probeUnavailable :=
  ⟨rfl, fun h => nomatch h⟩

/-- C6 amended: the duration prober does not distinguish a missing probing
tool from unreadable probe output — every failure, the tool being entirely
absent included, is recovered per-clip by substituting the 2.0-second
fallback duration, and no probe failure aborts the run. -/
theorem C6_amended_no_distinction (p f : ProbeOutcome) :
    ∃ d : ℚ, get_precise_duration p f = Except.ok d ∧
      ((∀ x, p ≠ ProbeOutcome.ok x) → (∀ x, f ≠ ProbeOutcome.ok x) → d = 2) := by
  cases p with
  | ok x => exact ⟨x, rfl, fun hp _ => absurd rfl (hp x)⟩
  | parseFailure =>
    cases f with
    | ok y => exact ⟨y, rfl, fun _ hf => absurd rfl (hf y)⟩
    | parseFailure => exact ⟨2, rfl, fun _ _ => rfl⟩
    | toolMissing => exact ⟨2, rfl, fun _ _ => rfl⟩
  | toolMissing =>
    cases f with
    | ok y => exact ⟨y, rfl, fun _ hf => absurd rfl (hf y)⟩
    | parseFailure => exact ⟨2, rfl, fun _ _ => rfl⟩
    | toolMissing => exact ⟨2, rfl, fun _ _ => rfl⟩

theorem C6_amended_no_distinction_witness :
    ∃ d : ℚ, get_precise_duration ProbeOutcome.toolMissing
        ProbeOutcome.parseFailure = Except.ok d ∧
      ((∀ x, ProbeOutcome.toolMissing ≠ ProbeOutcome.ok x) →
        (∀ x, ProbeOutcome.parseFailure ≠ ProbeOutcome.ok x) → d = 2) :=
  C6_amended_no_distinction ProbeOutcome.toolMissing ProbeOutcome.parseFailure

/-! ## Zero-segment behavior (C7) and the engine invocation (C8) -/

/-- The error the specification's validation step would raise.  The source
never constructs it. -/
inductive PipelineError where
  | emptyTimeline : PipelineError
deriving DecidableEq

/-- The planning stage as the source runs it (lines 44–66): the function
performs no segment-count validation — it computes the timeline and the
total duration unconditionally for any segment count, zero included.  The
`Except` result type records that no failure path exists before the
transcoder is invoked. -/
def planStage (intro outro p : ℚ) (durs : List ℚ) :
    Except PipelineError (List Interval × ℚ) :=
  Except.ok (plan intro outro p durs, totalDuration intro outro p durs)

/-- C7 counterexample: for an empty poem line list (N = 0) the pipeline does
not fail validation — no `EmptyTimeline` error exists in the code.  Planning
succeeds and yields the degenerate intro+outro timeline with the total
duration `2 + 0 + (0 - 1) * 0.5 + 2 = 3.5` of line 66 (Python's
`len(df) - 1` is −1 there). -/
theorem C7_counterexample :
    planStage introDuration outroDuration pauseDuration [] =
      Except.ok ([⟨IKind.intro, 0, 2⟩, ⟨IKind.outro, 2, 2⟩], 7/2) := by
  simp only [planStage, plan, segWalk_nil, totalDuration, introDuration,
    outroDuration, pauseDuration, List.length_nil, List.sum_nil,
    List.nil_append, Except.ok.injEq, Prod.mk.injEq]
  norm_num

/-- C7 amended: for zero segments the pipeline performs no validation at
all: it plans a timeline of exactly the intro and outro intervals and
computes total duration 3.5 seconds (intro + outro − pause, from the signed
`(len(df) - 1) * pause` term), then proceeds to build the transcoder
invocation as usual. -/
theorem C7_amended_no_validation :
    (plan introDuration outroDuration pauseDuration []).length = 2 ∧
    plan introDuration outroDuration pauseDuration [] =
      [⟨IKind.intro, 0, 2⟩, ⟨IKind.outro, 2, 2⟩] ∧
    totalDuration introDuration outroDuration pauseDuration [] = 7/2 := by
  refine ⟨rfl, ?_, ?_⟩
  · simp only [plan, segWalk_nil, introDuration, outroDuration,
      List.nil_append]
  · simp only [totalDuration, introDuration, outroDuration, pauseDuration,
      List.length_nil, List.sum_nil]
    norm_num

/-- The full ffmpeg invocation of lines 157–202: program name and `-y`, the
input files in order (background line 161, images lines 164–166, audio
lines 169–171, music lines 174–175), the filter complex (line 178), the
output maps (line 181), the fixed encoder settings, the `-t` total-duration
clamp, and — as the very last argument — the output path itself (line 201):
the process writes directly to `output_video`, through no temporary path. -/
def ffmpegCmd (showQ : ℚ → String) (join : String → String → String)
    (bg imageDir audioDir out : String) (durs : List ℚ) (music : Bool) :
    List String :=
  ["ffmpeg", "-y", "-i", bg] ++
  (List.range durs.length).flatMap
    (fun idx => ["-i", imageFile join imageDir idx]) ++
  (List.range durs.length).flatMap
    (fun idx => ["-i", audioFile join audioDir idx]) ++
  (if music then ["-i", musicPath] else []) ++
  ["-filter_complex", buildFilterComplex showQ durs music] ++
  ["-map", "[video]", "-map", (audioTail durs.length music).2] ++
  ["-c:v", "libx264", "-preset", "slow", "-crf", "18", "-pix_fmt", "yuv420p",
   "-g", "30", "-bf", "3", "-refs", "4", "-qmin", "10", "-qmax", "51",
   "-profile:v", "high", "-level", "4.1", "-c:a", "aac", "-b:a", "256k",
   "-ar", "48000", "-t",
   showQ (totalDuration introDuration outroDuration pauseDuration durs),
   "-movflags", "+faststart", out]

theorem ffmpegCmd_getLast (showQ : ℚ → String) (join : String → String → String)
    (bg imageDir audioDir out : String) (durs : List ℚ) (music : Bool) :
    (ffmpegCmd showQ join bg imageDir audioDir out durs music).getLast? =
      some out := by
  unfold ffmpegCmd
  rw [List.getLast?_append]
  rfl

/-- What the non-zero-exit branch of lines 214–219 does: print the ffmpeg
stderr and save the joined command to `debug_command.txt`.  The branch — and
the whole function — contains no removal of the output file, no rename, and
no temporary output path. -/
inductive FailureAction where
  | printErrorMessage : FailureAction
  | saveDebugCommand : FailureAction
deriving DecidableEq

/-- Lines 214–219, the actions taken when the transcoder exits non-zero. -/
def onTranscodeFailure : List FailureAction :=
  [FailureAction.printErrorMessage, FailureAction.saveDebugCommand]

/-- C8 counterexample: the transcoder is invoked with the final output path
itself as its destination — the last argument of the command built for
`main`'s paths is `output/reddit_poem_video.mp4`, not a temporary path, so
no discard-and-rename mechanism exists and a failed run can leave a partial
file at the output path. -/
theorem C8_counterexample :
    (ffmpegCmd (fun q => toString q) (fun a b => a ++ "/" ++ b)
        backgroundVideoPath imageDirPath audioDirPath outputVideoPath
        [2] true).getLast? = some outputVideoPath :=
  ffmpegCmd_getLast (fun q => toString q) (fun a b => a ++ "/" ++ b)
    backgroundVideoPath imageDirPath audioDirPath outputVideoPath [2] true

/-- C8 amended: the engine writes directly to the output path (the
invocation's last argument is the output path itself; no temporary output
path or rename exists), and on non-zero exit the code only prints the error
and saves the full command to `debug_command.txt` — any partial file the
external process wrote at the output path is left in place. -/
theorem C8_amended_direct_output (showQ : ℚ → String)
    (join : String → String → String) (bg imageDir audioDir out : String)
    (durs : List ℚ) (music : Bool) :
    (ffmpegCmd showQ join bg imageDir audioDir out durs music).getLast? =
      some out ∧
    onTranscodeFailure =
      [FailureAction.printErrorMessage, FailureAction.saveDebugCommand] :=
  ⟨ffmpegCmd_getLast showQ join bg imageDir audioDir out durs music, rfl⟩

end RedditRhymes
